import Mathlib

/-!
The 404 default backend (`images/404-server/server.go`).

A shallow embedding of the server's three registered handlers, of the request
dispatch over the three registered patterns, of the protocol-version label the
not-found handler computes for its two metrics, and of the start/stop sequence
of `main`.

Library code the program calls (`strconv.Itoa`, `http.Header.Set`,
`http.ResponseWriter`, the request dispatch of `http.ServeMux` with its redirect
to the canonical path, the two clock readings of `time.Now`) is embedded next
to the program code that calls it.
-/

namespace NotFoundServer

/-! ## `strconv.Itoa` -/

namespace strconv

/-- The byte `u + '0'` for a decimal digit `u`. -/
def digitByte (u : Nat) : Char := Char.ofNat (48 + u)

/-- The digit loop of `formatBits` in base 10: while `u >= 10` the low digit is
written in front of the buffer `a` and `u` is divided by ten; the last digit is
written when the loop ends.  `fuel` bounds the number of iterations. -/
def formatBitsLoop : Nat → Nat → List Char → List Char
  | 0, u, a => digitByte u :: a
  | fuel + 1, u, a =>
    if 10 ≤ u then formatBitsLoop fuel (u / 10) (digitByte (u % 10) :: a)
    else digitByte u :: a

/-- The decimal digits of the magnitude `u`; the loop divides `u` by ten on
every iteration, so `u` iterations are always enough. -/
def formatBits (u : Nat) : List Char := formatBitsLoop u u []

/-- The function `strconv.Itoa(i)`: the magnitude is formatted in base 10 and a
`-` is put in front when `i` is negative. -/
def Itoa (i : Int) : String :=
  if i < 0 then String.mk ('-' :: formatBits i.natAbs) else String.mk (formatBits i.natAbs)

/-- One step of reading a decimal digit string back: `acc * 10 + (c - '0')`. -/
def parseStep (acc : Nat) (c : Char) : Nat := 10 * acc + (c.toNat - 48)

/-- The number a string of decimal digits denotes. -/
def parseDigits (cs : List Char) : Nat := cs.foldl parseStep 0

end strconv

/-- The label computed by the not-found handler (server.go, lines 68-69):
`proto := strconv.Itoa(r.ProtoMajor)` and then
`proto = proto + "." + strconv.Itoa(r.ProtoMinor)`. -/
def protoLabel (ProtoMajor ProtoMinor : Int) : String :=
  let proto := strconv.Itoa ProtoMajor
  proto ++ "." ++ strconv.Itoa ProtoMinor

/-! ## `time`: durations and the two clock readings of a handler run -/

namespace time

/-- A `time.Duration`: a signed count of nanoseconds. -/
abbrev Duration := Int

def Nanosecond : Duration := 1
def Microsecond : Duration := 1000 * Nanosecond
def Millisecond : Duration := 1000 * Microsecond
def Second : Duration := 1000 * Millisecond
def Minute : Duration := 60 * Second

/-- The number of seconds a duration denotes, as an exact fraction. -/
def Seconds (d : Duration) : ℚ := (d : ℚ) / 1000000000

end time

/-- The float64 value `d.Seconds() * 1e3` the not-found handler observes, the
number of milliseconds in the duration `d`.  It is kept as the duration it is
computed from, so that nothing is asserted about its rounding. -/
structure Float64Millis where
  ofDuration : time.Duration
  deriving DecidableEq

/-- The two readings of `time.Now()` one run of the not-found handler makes, in
nanoseconds: `start` on entry (line 46) and `finish` after the body is written
(line 73). -/
structure Clock where
  start : Int
  finish : Int

/-! ## `net/textproto` and `net/http`: header maps and the response writer -/

namespace textproto

/-- The characters RFC 7230 allows in a header field name. -/
def validHeaderFieldByte (c : Char) : Bool :=
  c.isAlphanum ||
    [Char.ofNat 33, Char.ofNat 35, Char.ofNat 36, Char.ofNat 37, Char.ofNat 38, Char.ofNat 39,
      Char.ofNat 42, Char.ofNat 43, Char.ofNat 45, Char.ofNat 46, Char.ofNat 94, Char.ofNat 95,
      Char.ofNat 96, Char.ofNat 124, Char.ofNat 126].contains c

/-- The rewriting loop of `canonicalMIMEHeaderKey`: the first letter and every
letter after a hyphen become upper case, every other letter lower case. -/
def canonicalLoop : Bool → List Char → List Char
  | _, [] => []
  | upper, c :: cs =>
    let c1 := if upper && c.isLower then c.toUpper
      else if !upper && c.isUpper then c.toLower else c
    c1 :: canonicalLoop (c1 == '-') cs

/-- The function `textproto.CanonicalMIMEHeaderKey`: a key holding a byte that is not valid
in a field name is returned unchanged, any other key in canonical case. -/
def CanonicalMIMEHeaderKey (s : String) : String :=
  if s.data.all validHeaderFieldByte then String.mk (canonicalLoop true s.data) else s

end textproto

namespace http

/-- The type `http.Header`, a `map[string][]string`: the list of values stored under a
key, `none` for a key that is not in the map. -/
abbrev Header := String → Option (List String)

/-- The empty header map. -/
def Header.empty : Header := fun _ => none

/-- The method `h.Set(key, value)`: the entry of the canonical form of `key` is replaced by
the single value `value`. -/
def Header.Set (h : Header) (key value : String) : Header :=
  fun k => if k = textproto.CanonicalMIMEHeaderKey key then some [value] else h k

def StatusOK : Nat := 200
def StatusMovedPermanently : Nat := 301
def StatusBadRequest : Nat := 400
def StatusNotFound : Nat := 404

/-- The function `bodyAllowedForStatus`: 1xx, 204 and 304 responses carry no body. -/
def bodyAllowedForStatus (status : Nat) : Bool :=
  if 100 ≤ status ∧ status ≤ 199 then false
  else if status = 204 then false
  else if status = 304 then false
  else true

/-- The fields of `*http.Request` the program and the request dispatch read
(`Path` is `r.URL.Path`), and the request headers. -/
structure Request where
  Method : String
  Path : String
  ProtoMajor : Int
  ProtoMinor : Int
  Header : List (String × String)

/-- The state behind an `http.ResponseWriter`: the header map the handler edits
through `w.Header()`, whether the status line has been written, the status code
and the header map as they were when the status line was written, the body
bytes sent so far, and the method of the request that is being answered. -/
structure ResponseWriter where
  header : Header
  wroteHeader : Bool
  status : Nat
  sentHeader : Header
  body : String
  reqMethod : String

/-- The response writer a handler is given for the request `r`. -/
def newResponse (r : Request) : ResponseWriter :=
  { header := Header.empty, wroteHeader := false, status := 0,
    sentHeader := Header.empty, body := "", reqMethod := r.Method }

/-- The statement `w.Header().Set(key, value)`. -/
def ResponseWriter.HeaderSet (w : ResponseWriter) (key value : String) : ResponseWriter :=
  { w with header := w.header.Set key value }

/-- The method `w.WriteHeader(code)`: the first call fixes the status code and the headers
that are sent; a later call is ignored. -/
def ResponseWriter.WriteHeader (w : ResponseWriter) (code : Nat) : ResponseWriter :=
  if w.wroteHeader then w
  else { w with wroteHeader := true, status := code, sentHeader := w.header }

/-- The method `w.Write(data)`: writes the status line with `StatusOK` when it
has not been written yet; the data is refused when the status allows no body,
swallowed when the request is a HEAD request, and appended to the body that is
sent otherwise.  The check of the written length against a declared
`Content-Length` is left out: no handler of this program declares one. -/
def ResponseWriter.Write (w : ResponseWriter) (data : String) : ResponseWriter :=
  let w1 := if w.wroteHeader then w else w.WriteHeader StatusOK
  if data.length = 0 then w1
  else if bodyAllowedForStatus w1.status = false then w1
  else if w1.reqMethod = "HEAD" then w1
  else { w1 with body := w1.body ++ data }

/-- The call `fmt.Fprint(w, s)` for a string `s`. -/
def ResponseWriter.Fprint (w : ResponseWriter) (s : String) : ResponseWriter := w.Write s

end http

/-! ## The metrics registry -/

namespace prometheus

/-- A counter vector with one label: the value of the counter of each label
value (a label value that has no counter yet reads 0). -/
abbrev CounterVec := String → Nat

/-- A histogram vector with one label: the observations of the series of each
label value, oldest first. -/
abbrev HistogramVec := String → List Float64Millis

/-- The statement `v.WithLabelValues(lv).Inc()`. -/
def CounterVec.Inc (v : CounterVec) (lv : String) : CounterVec :=
  fun k => if k = lv then v k + 1 else v k

/-- The statement `v.WithLabelValues(lv).Observe(x)`. -/
def HistogramVec.Observe (v : HistogramVec) (lv : String) (x : Float64Millis) :
    HistogramVec :=
  fun k => if k = lv then v k ++ [x] else v k

end prometheus

/-- Modelled from the spec: the package variables `requestCount` and
`requestDuration`, which server.go registers and updates and which are declared
in a file of the repository that is not among the sources.  The Request Counter
is a count partitioned by the protocol-version label, the Request Duration
Histogram a distribution, in milliseconds, partitioned by the same label. -/
structure Metrics where
  requestCount : prometheus.CounterVec
  requestDuration : prometheus.HistogramVec

/-- The metrics of a process that has served no request. -/
def Metrics.init : Metrics :=
  { requestCount := fun _ => 0, requestDuration := fun _ => [] }

/-! ## The handlers of `main` -/

open http in
/-- A handler: it edits the response writer and the metrics registry. -/
abbrev HandlerFunc := ResponseWriter → Request → Clock → Metrics → ResponseWriter × Metrics

/-- The body the not-found handler prints (line 66). -/
def notFoundBody : String := "\x7b\"error\": \"Not found\"\x7d"

open http in
/-- The handler registered for the pattern `/` (server.go, lines 45-75). -/
def notFoundHandler : HandlerFunc := fun w r clk m =>
  let start := clk.start
  let w := w.HeaderSet "Access-Control-Allow-Credentials" "true"
  let w := w.HeaderSet "Access-Control-Allow-Headers" "Content-Type,Authorization,X-User-Agent"
  let w := w.HeaderSet "Access-Control-Allow-Origin" "*"
  let w := w.HeaderSet "Access-Control-Expose-Headers"
    ("Content-Type,Warning,X-Pages," ++ "X-ESI-Error-Limit-Remain,X-ESI-Error-Limit-Reset")
  let w := w.HeaderSet "Access-Control-Max-Age" "600"
  let w := w.HeaderSet "Content-Type" "application/json"
  let w := w.HeaderSet "Strict-Transport-Security" "max-age=31536000"
  let w := w.WriteHeader StatusNotFound
  let w := w.Fprint notFoundBody
  let proto := protoLabel r.ProtoMajor r.ProtoMinor
  let m := { m with requestCount := m.requestCount.Inc proto }
  let duration := Float64Millis.mk (clk.finish - start)
  let m := { m with requestDuration := m.requestDuration.Observe proto duration }
  (w, m)

open http in
/-- The handler registered for the pattern `/healthz` (server.go, lines 76-79). -/
def healthzHandler : HandlerFunc := fun w _ _ m =>
  let w := w.WriteHeader StatusOK
  let w := w.Fprint "ok"
  (w, m)

/-! ## `path.Clean` and the canonical form of a request path -/

namespace path

/-- The elements of a path, the pieces between its slashes; `cur` holds the
element being read, last byte first. -/
def splitSlash : List Char → List Char → List (List Char)
  | [], cur => [cur.reverse]
  | c :: cs, cur => if c = '/' then cur.reverse :: splitSlash cs [] else splitSlash cs (c :: cur)

/-- The elements `path.Clean` keeps, last element first: an empty element and
`.` are dropped, `..` removes the element before it, is dropped at the root of
a rooted path, and is kept at the front of a path that is not rooted. -/
def cleanElements (isRooted : Bool) : List (List Char) → List (List Char) → List (List Char)
  | [], kept => kept
  | e :: es, kept =>
    if e = [] ∨ e = ['.'] then cleanElements isRooted es kept
    else if e = ['.', '.'] then
      match kept with
      | top :: below =>
        if top = ['.', '.'] then cleanElements isRooted es (e :: kept)
        else cleanElements isRooted es below
      | [] => if isRooted then cleanElements isRooted es [] else cleanElements isRooted es [e]
    else cleanElements isRooted es (e :: kept)

/-- The elements joined by single slashes. -/
def joinSlash : List (List Char) → List Char
  | [] => []
  | [e] => e
  | e :: es => e ++ '/' :: joinSlash es

/-- The function `path.Clean`: the shortest path equivalent to `p` by lexical
processing alone. -/
def Clean (p : String) : String :=
  if p.data = [] then "."
  else
    let isRooted : Bool := p.data.head? = some '/'
    let kept := (cleanElements isRooted (splitSlash p.data []) []).reverse
    if isRooted then String.mk ('/' :: joinSlash kept)
    else if kept = [] then "."
    else String.mk (joinSlash kept)

end path

namespace http

/-- The function `cleanPath` of `net/http`: the canonical form of a request
path, rooted, cleaned by `path.Clean`, with the trailing slash kept. -/
def cleanPath (p : String) : String :=
  if p.data = [] then "/"
  else
    let p1 := if p.data.head? = some '/' then p else "/" ++ p
    let np := path.Clean p1
    if p1.data.getLast? = some '/' ∧ np ≠ "/" then np ++ "/" else np

/-- The function `http.NotFound`, the handler the mux uses when no pattern matches. -/
def NotFound (w : ResponseWriter) : ResponseWriter :=
  let w := w.HeaderSet "Content-Type" "text/plain; charset=utf-8"
  let w := w.HeaderSet "X-Content-Type-Options" "nosniff"
  let w := w.WriteHeader StatusNotFound
  w.Fprint "404 page not found\n"

/-- The function `htmlEscape`: the five characters `&`, `<`, `>`, the double
quote and the single quote are replaced by their entities. -/
def htmlEscape (s : String) : String :=
  String.mk (List.flatten (s.data.map fun c =>
    if c = '&' then "&amp;".data
    else if c = '<' then "&lt;".data
    else if c = '>' then "&gt;".data
    else if c = Char.ofNat 34 then "&#34;".data
    else if c = Char.ofNat 39 then "&#39;".data
    else [c]))

/-- The rows of `http.StatusText` for the redirect statuses, the only ones the
redirect below is used with. -/
def StatusText (code : Nat) : String :=
  if code = 301 then "Moved Permanently"
  else if code = 302 then "Found"
  else if code = 303 then "See Other"
  else if code = 307 then "Temporary Redirect"
  else if code = 308 then "Permanent Redirect"
  else ""

/-- The function `http.Redirect` for a target that is a canonical rooted path:
the `Location` header, the status line, and for a GET request a short note.
The percent-escaping of the target and the query string that the real target
carries over are not represented. -/
def Redirect (w : ResponseWriter) (r : Request) (url : String) (code : Nat) : ResponseWriter :=
  let hadCT : Bool := (w.header "Content-Type").isSome
  let w := w.HeaderSet "Location" url
  let w := if !hadCT && (r.Method == "GET" || r.Method == "HEAD") then
      w.HeaderSet "Content-Type" "text/html; charset=utf-8"
    else w
  let w := w.WriteHeader code
  if !hadCT && r.Method == "GET" then
    w.Fprint ("<a href=\"" ++ htmlEscape url ++ "\">" ++ StatusText code ++ "</a>.\n" ++ "\n")
  else w

/-- The method `r.ProtoAtLeast(major, minor)`. -/
def Request.ProtoAtLeast (r : Request) (major minor : Int) : Bool :=
  r.ProtoMajor > major || (r.ProtoMajor == major && r.ProtoMinor >= minor)

/-- What the server does when a handler has returned without writing the status
line: it writes it with `StatusOK`. -/
def ResponseWriter.finishRequest (w : ResponseWriter) : ResponseWriter :=
  if w.wroteHeader then w else w.WriteHeader StatusOK

end http

/-! ## `http.ServeMux`: the dispatch over the registered patterns -/

/-- An entry of the mux: a registered pattern and its handler. -/
structure muxEntry where
  pattern : String
  h : HandlerFunc

/-- The function `pathMatch`: a pattern that does not end in a slash matches exactly its own
path, a pattern that ends in a slash matches every path it is a leading part of. -/
def pathMatch (pattern path : String) : Bool :=
  if pattern.data.length = 0 then false
  else if pattern.data.getLast? ≠ some '/' then pattern == path
  else pattern.data.isPrefixOf path.data

/-- The loop of `ServeMux.match`: among the entries whose pattern matches the
path, the one with the longest pattern wins. -/
def matchLoop (path : String) : List muxEntry → Option muxEntry → Option muxEntry
  | [], best => best
  | e :: es, best =>
    if !pathMatch e.pattern path then matchLoop path es best
    else match best with
      | none => matchLoop path es (some e)
      | some b =>
        if e.pattern.utf8ByteSize > b.pattern.utf8ByteSize then matchLoop path es (some e)
        else matchLoop path es best

/-- The three registrations of `main` (lines 45, 76 and 80); the handler
`promhttp.Handler()` is a parameter. -/
def DefaultServeMux (promhttpHandler : HandlerFunc) : List muxEntry :=
  [ { pattern := "/", h := notFoundHandler },
    { pattern := "/healthz", h := healthzHandler },
    { pattern := "/metrics", h := promhttpHandler } ]

/-- The method `mux.handler(host, path)`: the handler of the longest matching
pattern, or `http.NotFound` when no pattern matches. -/
def muxHandler (mux : List muxEntry) (path : String) : HandlerFunc :=
  match matchLoop path mux none with
  | some e => e.h
  | none => fun w _ _ m => (http.NotFound w, m)

/-- The method `mux.Handler(r)`: a CONNECT request is dispatched on its path as
it is; for any other request the path is cleaned first, and a request whose
path is not already canonical is answered with a redirect to the canonical
path.  The status of that redirect, `http.StatusMovedPermanently` in the
library source, is the parameter `redirectCode`.  (The redirect from `/tree` to
a registered `/tree/` cannot arise: the only registered pattern that ends in a
slash is `/`.) -/
def muxHandlerFor (mux : List muxEntry) (redirectCode : Nat) (r : http.Request) : HandlerFunc :=
  if r.Method = "CONNECT" then muxHandler mux r.Path
  else
    let path := http.cleanPath r.Path
    if path ≠ r.Path then fun w r _ m => (http.Redirect w r path redirectCode, m)
    else muxHandler mux r.Path

/-- The answer of the server to one request, on a new response writer.  The
request target `*` (the only one with the path `*`) never reaches a handler:
for OPTIONS the server answers it itself with an empty 200 response, for any
other method the mux answers 400.  Every other request is answered by the
handler the mux selects. -/
def serve (promhttpHandler : HandlerFunc) (redirectCode : Nat) (r : http.Request)
    (clk : Clock) (m : Metrics) : http.ResponseWriter × Metrics :=
  let w := http.newResponse r
  let res :=
    if r.Path = "*" then
      if r.Method = "OPTIONS" then ((w.HeaderSet "Content-Length" "0"), m)
      else
        let w := if r.ProtoAtLeast 1 1 then w.HeaderSet "Connection" "close" else w
        (w.WriteHeader http.StatusBadRequest, m)
    else muxHandlerFor (DefaultServeMux promhttpHandler) redirectCode r w r clk m
  (res.1.finishRequest, res.2)

/-- The metrics after the not-found handler has run once for each request of
the list, in order, each run with its own clock readings. -/
def runNotFound : List (http.Request × Clock) → Metrics → Metrics
  | [], m => m
  | (r, clk) :: rest, m => runNotFound rest (notFoundHandler (http.newResponse r) r clk m).2

/-! ## The start/stop sequence of `main` -/

/-- A Go `error` value as the program sees it: `nil`, the sentinel
`http.ErrServerClosed`, or any other error with its message. -/
inductive GoError where
  | nil
  | ErrServerClosed
  | other (msg : String)
  deriving DecidableEq

/-- What the verb `%s` prints for an error value. -/
def GoError.format : GoError → String
  | .nil => "%!s(<nil>)"
  | .ErrServerClosed => "http: Server closed"
  | .other msg => msg

/-- Where the main goroutine stands: blocked on `<-stop` (line 96), inside
`srv.Shutdown(ctx)` with the timeout its context was made with (line 100). -/
inductive Phase where
  | waiting
  | draining (timeout : time.Duration)
  deriving DecidableEq

/-- The observable state of the process: the phase of the main goroutine,
whether `srv.ListenAndServe()` has returned in the listener goroutine, the
writes to standard error so far, and the exit status once the process has
terminated. -/
structure Process where
  phase : Phase
  listenReturned : Bool
  stderr : List String
  exit : Option Nat
  deriving DecidableEq

/-- The process when `main` has started the listener goroutine and blocks on
the stop channel. -/
def Process.init : Process :=
  { phase := .waiting, listenReturned := false, stderr := [], exit := none }

/-- The call `fmt.Fprintf(os.Stderr, ...)` with the formatted text `s`. -/
def Process.FprintfStderr (p : Process) (s : String) : Process :=
  { p with stderr := p.stderr ++ [s] }

/-- The call `os.Exit(code)`. -/
def Process.Exit (p : Process) (code : Nat) : Process :=
  { p with exit := some code }

/-- The listener goroutine after `srv.ListenAndServe()` has returned `err`
(lines 87-91). -/
def listenGoroutine (p : Process) (err : GoError) : Process :=
  let p := { p with listenReturned := true }
  if err ≠ GoError.ErrServerClosed then
    let p := p.FprintfStderr ("could not start http server: " ++ err.format ++ "\n")
    p.Exit 1
  else p

/-- The main goroutine when a value arrives on `stop`: the context is made with
`time.Minute` and `srv.Shutdown(ctx)` is called (lines 96-100). -/
def mainStop (p : Process) : Process :=
  { p with phase := .draining time.Minute }

/-- The main goroutine after `srv.Shutdown(ctx)` has returned `err` (lines
100-104): the error is reported when it is not `nil`, then `main` returns and
the process ends with status 0. -/
def mainShutdownReturned (p : Process) (err : GoError) : Process :=
  let p := if err ≠ GoError.nil then
      p.FprintfStderr ("could not graceful shutdown http server: " ++ err.format ++ "\n")
    else p
  p.Exit 0

/-- What can happen to the process: `srv.ListenAndServe()` returns in the
listener goroutine, SIGTERM is delivered to the stop channel, `srv.Shutdown`
returns in the main goroutine. -/
inductive Event where
  | listenReturns (err : GoError)
  | sigterm
  | shutdownReturns (err : GoError)
  deriving DecidableEq

/-- One step of the process, the two goroutines interleaved event by event (the
statements a goroutine runs on one event are taken as one step).  A terminated
process does nothing; the listener returns once; a signal is consumed by the
main goroutine only while it waits for one; `srv.Shutdown` returns only after
it was called. -/
def step (p : Process) (e : Event) : Process :=
  match p.exit with
  | some _ => p
  | none =>
    match e with
    | .listenReturns err => if p.listenReturned then p else listenGoroutine p err
    | .sigterm =>
      match p.phase with
      | .waiting => mainStop p
      | .draining _ => p
    | .shutdownReturns err =>
      match p.phase with
      | .waiting => p
      | .draining _ => mainShutdownReturned p err

/-- The process after a sequence of events. -/
def run (p : Process) (evs : List Event) : Process := evs.foldl step p

/-! ## The header table of the specification -/

/-- The seven response headers of the not-found path, as the specification
lists them. -/
def specHeaders : List (String × String) :=
  [ ("Access-Control-Allow-Credentials", "true"),
    ("Access-Control-Allow-Headers", "Content-Type,Authorization,X-User-Agent"),
    ("Access-Control-Allow-Origin", "*"),
    ("Access-Control-Expose-Headers",
      "Content-Type,Warning,X-Pages,X-ESI-Error-Limit-Remain,X-ESI-Error-Limit-Reset"),
    ("Access-Control-Max-Age", "600"),
    ("Content-Type", "application/json"),
    ("Strict-Transport-Security", "max-age=31536000") ]

/-- A header map holds every entry of the list, each with exactly its value. -/
def holdsAll (h : http.Header) (entries : List (String × String)) : Prop :=
  ∀ kv ∈ entries, h kv.1 = some [kv.2]

/-- A rooted path: one that begins with `/`. -/
def rooted (path : String) : Prop := path.data.head? = some '/'

/-- A canonical path: one that `cleanPath` leaves as it is.  It begins with `/`
and has no empty element, no `.` and no `..` (a single trailing slash is
allowed). -/
def canonical (path : String) : Prop := http.cleanPath path = path

instance (path : String) : Decidable (rooted path) := by
  unfold rooted; infer_instance

instance (path : String) : Decidable (canonical path) := by
  unfold canonical; infer_instance

instance (h : http.Header) (entries : List (String × String)) : Decidable (holdsAll h entries) := by
  unfold holdsAll; infer_instance

/-! ## Facts about `strconv.Itoa` -/

namespace strconv

theorem digitByte_eq_digitChar (d : Nat) (h : d < 10) : digitByte d = Nat.digitChar d := by
  interval_cases d <;> rfl

theorem formatBitsLoop_eq_toDigitsCore (fuel : Nat) :
    ∀ (fuel2 u : Nat) (a : List Char), u ≤ fuel → u < fuel2 →
      formatBitsLoop fuel u a = Nat.toDigitsCore 10 fuel2 u a := by
  induction fuel with
  | zero =>
    intro fuel2 u a hu h2
    obtain rfl : u = 0 := by omega
    obtain ⟨k, rfl⟩ : ∃ k, fuel2 = k + 1 := ⟨fuel2 - 1, by omega⟩
    simp [formatBitsLoop, Nat.toDigitsCore, digitByte_eq_digitChar]
  | succ n ih =>
    intro fuel2 u a hu h2
    obtain ⟨k, rfl⟩ : ∃ k, fuel2 = k + 1 := ⟨fuel2 - 1, by omega⟩
    by_cases h10 : 10 ≤ u
    · have hne : u / 10 ≠ 0 := by omega
      have hlt : u % 10 < 10 := Nat.mod_lt _ (by decide)
      simp only [formatBitsLoop, Nat.toDigitsCore, h10, if_true, hne, if_false,
        digitByte_eq_digitChar _ hlt]
      exact ih k (u / 10) _ (by omega) (by omega)
    · have hz : u / 10 = 0 := by omega
      have hm : u % 10 = u := by omega
      have hlt : u < 10 := by omega
      simp [formatBitsLoop, Nat.toDigitsCore, h10, hz, hm, digitByte_eq_digitChar _ hlt]

theorem formatBits_eq_toDigits (u : Nat) : formatBits u = Nat.toDigits 10 u :=
  formatBitsLoop_eq_toDigitsCore u (u + 1) u [] (Nat.le_refl u) (Nat.lt_succ_self u)

theorem Itoa_eq_toString (i : Int) : Itoa i = toString i := by
  cases i with
  | ofNat n =>
    have h : ¬ ((Int.ofNat n) < 0) := by simp
    simp only [Itoa, h, if_false, formatBits_eq_toDigits]
    rfl
  | negSucc n =>
    have h : (Int.negSucc n) < 0 := Int.negSucc_lt_zero n
    simp only [Itoa, h, if_true, formatBits_eq_toDigits]
    rfl

theorem digitByte_toNat (d : Nat) (h : d < 10) : (digitByte d).toNat = 48 + d := by
  interval_cases d <;> rfl

theorem digitByte_isDigit (d : Nat) (h : d < 10) : (digitByte d).isDigit = true := by
  interval_cases d <;> rfl

theorem parseDigits_step (acc : Nat) (d : Nat) (h : d < 10) (a : List Char) :
    List.foldl parseStep acc (digitByte d :: a) = List.foldl parseStep (10 * acc + d) a := by
  simp [parseStep, digitByte_toNat d h]

theorem parse_formatBitsLoop (fuel : Nat) :
    ∀ (u : Nat) (a : List Char), u ≤ fuel →
      List.foldl parseStep 0 (formatBitsLoop fuel u a) = List.foldl parseStep u a := by
  induction fuel with
  | zero =>
    intro u a hu
    obtain rfl : u = 0 := by omega
    rw [formatBitsLoop, parseDigits_step 0 0 (by decide)]
  | succ n ih =>
    intro u a hu
    by_cases h10 : 10 ≤ u
    · simp only [formatBitsLoop, h10, if_true]
      rw [ih (u / 10) _ (by omega), parseDigits_step _ _ (Nat.mod_lt _ (by decide))]
      congr 1
      omega
    · simp only [formatBitsLoop, h10, if_false]
      rw [parseDigits_step 0 u (by omega)]
      congr 1
      omega

theorem parseDigits_formatBits (u : Nat) : parseDigits (formatBits u) = u := by
  simp [parseDigits, formatBits, parse_formatBitsLoop u u [] (Nat.le_refl u)]

theorem formatBits_injective {u v : Nat} (h : formatBits u = formatBits v) : u = v := by
  have := congrArg parseDigits h
  simpa [parseDigits_formatBits] using this

theorem formatBitsLoop_isDigit (fuel : Nat) :
    ∀ (u : Nat) (a : List Char), u ≤ fuel → ∀ c ∈ formatBitsLoop fuel u a,
      c.isDigit = true ∨ c ∈ a := by
  induction fuel with
  | zero =>
    intro u a hu c hc
    obtain rfl : u = 0 := by omega
    simp only [formatBitsLoop, List.mem_cons] at hc
    rcases hc with rfl | hc
    · exact Or.inl (digitByte_isDigit 0 (by decide))
    · exact Or.inr hc
  | succ n ih =>
    intro u a hu c hc
    by_cases h10 : 10 ≤ u
    · simp only [formatBitsLoop, h10, if_true] at hc
      rcases ih (u / 10) _ (by omega) c hc with h | h
      · exact Or.inl h
      · rcases List.mem_cons.mp h with rfl | h
        · exact Or.inl (digitByte_isDigit _ (Nat.mod_lt _ (by decide)))
        · exact Or.inr h
    · simp only [formatBitsLoop, h10, if_false, List.mem_cons] at hc
      rcases hc with rfl | hc
      · exact Or.inl (digitByte_isDigit u (by omega))
      · exact Or.inr hc

theorem formatBits_isDigit (u : Nat) (c : Char) (hc : c ∈ formatBits u) : c.isDigit = true := by
  rcases formatBitsLoop_isDigit u u [] (Nat.le_refl u) c hc with h | h
  · exact h
  · simp at h

theorem Itoa_injective {i j : Int} (h : Itoa i = Itoa j) : i = j := by
  replace h := congrArg String.data h
  unfold Itoa at h
  by_cases hi : i < 0 <;> by_cases hj : j < 0 <;>
    simp only [hi, hj, if_true, if_false] at h
  · have := formatBits_injective (List.cons.inj h).2
    omega
  · have hm : '-' ∈ formatBits j.natAbs := by rw [← h]; exact List.mem_cons_self _ _
    exact absurd (formatBits_isDigit _ _ hm) (by decide)
  · have hm : '-' ∈ formatBits i.natAbs := by rw [h]; exact List.mem_cons_self _ _
    exact absurd (formatBits_isDigit _ _ hm) (by decide)
  · have := formatBits_injective h
    omega

theorem dot_not_mem_Itoa (i : Int) : '.' ∉ (Itoa i).data := by
  intro hm
  unfold Itoa at hm
  by_cases hi : i < 0 <;> simp only [hi, if_true, if_false] at hm
  · rcases List.mem_cons.mp hm with h | h
    · exact absurd h (by decide)
    · exact absurd (formatBits_isDigit _ _ h) (by decide)
  · exact absurd (formatBits_isDigit _ _ hm) (by decide)

end strconv

theorem append_sep_inj {c : Char} :
    ∀ (A1 A2 B1 B2 : List Char), c ∉ A1 → c ∉ A2 →
      A1 ++ c :: B1 = A2 ++ c :: B2 → A1 = A2 ∧ B1 = B2 := by
  intro A1
  induction A1 with
  | nil =>
    intro A2 B1 B2 _ h2 h
    cases A2 with
    | nil => exact ⟨rfl, (List.cons.inj h).2⟩
    | cons x xs =>
      have : c = x := (List.cons.inj h).1
      exact absurd (this ▸ List.mem_cons_self _ _) h2
  | cons a as ih =>
    intro A2 B1 B2 h1 h2 h
    cases A2 with
    | nil =>
      have : a = c := (List.cons.inj h).1
      exact absurd (this ▸ List.mem_cons_self _ _) h1
    | cons x xs =>
      obtain ⟨hx, ht⟩ := List.cons.inj h
      obtain ⟨e1, e2⟩ := ih xs B1 B2 (fun hm => h1 (List.mem_cons_of_mem _ hm))
        (fun hm => h2 (List.mem_cons_of_mem _ hm)) ht
      exact ⟨by rw [hx, e1], e2⟩

theorem protoLabel_data (M m : Int) :
    (protoLabel M m).data = (strconv.Itoa M).data ++ '.' :: (strconv.Itoa m).data := by
  simp [protoLabel, String.data_append]

theorem protoLabel_inj {M1 m1 M2 m2 : Int} (h : protoLabel M1 m1 = protoLabel M2 m2) :
    M1 = M2 ∧ m1 = m2 := by
  have hd := congrArg String.data h
  rw [protoLabel_data, protoLabel_data] at hd
  obtain ⟨e1, e2⟩ := append_sep_inj _ _ _ _ (strconv.dot_not_mem_Itoa M1)
    (strconv.dot_not_mem_Itoa M2) hd
  exact ⟨strconv.Itoa_injective (String.ext e1), strconv.Itoa_injective (String.ext e2)⟩

/-! ## Facts about the dispatch -/

theorem pathMatch_root (path : String) : pathMatch "/" path = true ↔ rooted path := by
  unfold pathMatch rooted
  rcases path with ⟨cs⟩
  cases cs with
  | nil => decide
  | cons c cs =>
    by_cases hc : c = '/'
    · subst hc
      simp [List.isPrefixOf]
    · simp [List.isPrefixOf, hc]
      exact fun h => hc h.symm

theorem pathMatch_healthz (path : String) :
    pathMatch "/healthz" path = true ↔ path = "/healthz" := by
  unfold pathMatch
  simp
  exact eq_comm

theorem pathMatch_metrics (path : String) :
    pathMatch "/metrics" path = true ↔ path = "/metrics" := by
  unfold pathMatch
  simp
  exact eq_comm

theorem Clean_rooted (p : String) (h : rooted p) : rooted (path.Clean p) := by
  unfold rooted at h
  unfold path.Clean
  have hne : ¬ (p.data = []) := by
    intro e
    rw [e] at h
    exact absurd h (by decide)
  simp only [hne, if_false, h, decide_True, if_true]
  rfl

theorem cleanPath_rooted (p : String) : rooted (http.cleanPath p) := by
  have key : ∀ p1 : String, rooted p1 →
      rooted (if p1.data.getLast? = some '/' ∧ path.Clean p1 ≠ "/" then path.Clean p1 ++ "/"
        else path.Clean p1) := by
    intro p1 h1
    have h2 := Clean_rooted p1 h1
    split
    · unfold rooted at h2 ⊢
      rw [String.data_append]
      cases hd : (path.Clean p1).data with
      | nil => rw [hd] at h2; exact absurd h2 (by decide)
      | cons x xs => rw [hd] at h2; exact h2
    · exact h2
  unfold http.cleanPath
  by_cases he : p.data = []
  · simp only [he, if_true]
    decide
  · simp only [he, if_false]
    apply key
    split
    · assumption
    · rfl

theorem canonical_rooted (p : String) (h : canonical p) : rooted p := by
  unfold canonical at h
  rw [← h]
  exact cleanPath_rooted p

theorem canonical_ne_star (p : String) (h : canonical p) : p ≠ "*" := by
  intro e
  rw [e] at h
  exact absurd h (by decide)

/-- Over the three registrations the mux selects the not-found handler for
every rooted path other than the two exact patterns. -/
theorem muxHandler_other (ph : HandlerFunc) (path : String) (hroot : rooted path)
    (h1 : path ≠ "/healthz") (h2 : path ≠ "/metrics") :
    muxHandler (DefaultServeMux ph) path = notFoundHandler := by
  have e0 : pathMatch "/" path = true := (pathMatch_root _).2 hroot
  have e1 : pathMatch "/healthz" path = false := by
    rw [Bool.eq_false_iff]; exact fun h => h1 ((pathMatch_healthz _).1 h)
  have e2 : pathMatch "/metrics" path = false := by
    rw [Bool.eq_false_iff]; exact fun h => h2 ((pathMatch_metrics _).1 h)
  simp [muxHandler, DefaultServeMux, matchLoop, e0, e1, e2]

/-- Over the three registrations the mux selects the health handler for the
path `/healthz`. -/
theorem muxHandler_healthz (ph : HandlerFunc) :
    muxHandler (DefaultServeMux ph) "/healthz" = healthzHandler := by
  have e0 : pathMatch "/" "/healthz" = true := by decide
  have e1 : pathMatch "/healthz" "/healthz" = true := by decide
  have e2 : pathMatch "/metrics" "/healthz" = false := by decide
  have e3 : "/healthz".utf8ByteSize > "/".utf8ByteSize := by decide
  simp [muxHandler, DefaultServeMux, matchLoop, e0, e1, e2, e3]

/-- For a canonical path the mux runs the handler of the longest matching
pattern, whatever the method. -/
theorem muxHandlerFor_canonical (mux : List muxEntry) (code : Nat) (r : http.Request)
    (hc : canonical r.Path) : muxHandlerFor mux code r = muxHandler mux r.Path := by
  unfold canonical at hc
  unfold muxHandlerFor
  split
  · rfl
  · simp [hc]

/-! ## Facts about the response writer -/

theorem WriteHeader_header (w : http.ResponseWriter) (code : Nat) :
    (w.WriteHeader code).header = w.header := by
  unfold http.ResponseWriter.WriteHeader
  split <;> rfl

theorem Write_header (w : http.ResponseWriter) (data : String) :
    (w.Write data).header = w.header := by
  have key : ∀ w1 : http.ResponseWriter, w1.header = w.header →
      (if data.length = 0 then w1
        else if http.bodyAllowedForStatus w1.status = false then w1
        else if w1.reqMethod = "HEAD" then w1
        else { w1 with body := w1.body ++ data }).header = w.header := by
    intro w1 h1
    split
    · exact h1
    · split
      · exact h1
      · split
        · exact h1
        · exact h1
  unfold http.ResponseWriter.Write
  apply key
  split
  · rfl
  · exact WriteHeader_header _ _

/-- A write after the status line leaves the status line and the headers sent
with it as they are, and sends the data unless the status allows no body or the
request is a HEAD request. -/
theorem Write_after_status (w : http.ResponseWriter) (data : String)
    (hw : w.wroteHeader = true) (hd : data.length ≠ 0)
    (hs : http.bodyAllowedForStatus w.status = true) :
    (w.Write data).wroteHeader = true ∧ (w.Write data).status = w.status ∧
    (w.Write data).sentHeader = w.sentHeader ∧ (w.Write data).reqMethod = w.reqMethod ∧
    (w.Write data).body = (if w.reqMethod = "HEAD" then w.body else w.body ++ data) := by
  unfold http.ResponseWriter.Write
  simp only [hw, if_true, hd, if_false, hs, Bool.true_eq_false]
  split
  · exact ⟨hw, rfl, rfl, rfl, rfl⟩
  · exact ⟨rfl, rfl, rfl, rfl, rfl⟩

/-- The response of the not-found handler on a new response writer. -/
theorem notFoundHandler_new (r : http.Request) (clk : Clock) (m : Metrics) :
    (notFoundHandler (http.newResponse r) r clk m).1.wroteHeader = true ∧
    (notFoundHandler (http.newResponse r) r clk m).1.status = 404 ∧
    (notFoundHandler (http.newResponse r) r clk m).1.body
      = (if r.Method = "HEAD" then "" else notFoundBody) := by
  have h := Write_after_status
    (http.ResponseWriter.WriteHeader
      ((((((((http.newResponse r).HeaderSet "Access-Control-Allow-Credentials"
      "true").HeaderSet "Access-Control-Allow-Headers"
      "Content-Type,Authorization,X-User-Agent").HeaderSet "Access-Control-Allow-Origin"
      "*").HeaderSet "Access-Control-Expose-Headers"
      ("Content-Type,Warning,X-Pages," ++ "X-ESI-Error-Limit-Remain,X-ESI-Error-Limit-Reset")).HeaderSet "Access-Control-Max-Age"
      "600").HeaderSet "Content-Type"
      "application/json").HeaderSet "Strict-Transport-Security"
      "max-age=31536000")
      http.StatusNotFound)
    notFoundBody rfl (by decide) rfl
  obtain ⟨h1, h2, _, _, h5⟩ := h
  refine ⟨h1, h2, ?_⟩
  refine h5.trans ?_
  show (if r.Method = "HEAD" then "" else "" ++ notFoundBody) = _
  by_cases hm : r.Method = "HEAD"
  · rw [if_pos hm, if_pos hm]
  · rw [if_neg hm, if_neg hm]
    simp

/-- The response of the health handler on a new response writer. -/
theorem healthzHandler_new (r : http.Request) (clk : Clock) (m : Metrics) :
    (healthzHandler (http.newResponse r) r clk m).1.wroteHeader = true ∧
    (healthzHandler (http.newResponse r) r clk m).1.status = 200 ∧
    (healthzHandler (http.newResponse r) r clk m).1.body
      = (if r.Method = "HEAD" then "" else "ok") := by
  have h := Write_after_status ((http.newResponse r).WriteHeader http.StatusOK) "ok" rfl
    (by decide) rfl
  obtain ⟨h1, h2, _, _, h5⟩ := h
  refine ⟨h1, h2, ?_⟩
  refine h5.trans ?_
  show (if r.Method = "HEAD" then "" else "" ++ "ok") = _
  by_cases hm : r.Method = "HEAD"
  · rw [if_pos hm, if_pos hm]
  · rw [if_neg hm, if_neg hm]
    simp

theorem finishRequest_of_wrote (w : http.ResponseWriter) (h : w.wroteHeader = true) :
    w.finishRequest = w := by
  simp [http.ResponseWriter.finishRequest, h]

/-- For a canonical path other than the two exact patterns the server runs the
not-found handler on a new response writer. -/
theorem serve_eq_notFoundHandler (ph : HandlerFunc) (code : Nat) (r : http.Request)
    (clk : Clock) (m : Metrics) (hc : canonical r.Path) (h1 : r.Path ≠ "/healthz")
    (h2 : r.Path ≠ "/metrics") :
    serve ph code r clk m = notFoundHandler (http.newResponse r) r clk m := by
  unfold serve
  simp only [canonical_ne_star _ hc, if_false, muxHandlerFor_canonical _ code r hc,
    muxHandler_other ph r.Path (canonical_rooted _ hc) h1 h2,
    finishRequest_of_wrote _ (notFoundHandler_new r clk m).1]

/-- For the path `/healthz` the server runs the health handler on a new
response writer. -/
theorem serve_eq_healthzHandler (ph : HandlerFunc) (code : Nat) (r : http.Request)
    (clk : Clock) (m : Metrics) (h : r.Path = "/healthz") :
    serve ph code r clk m = healthzHandler (http.newResponse r) r clk m := by
  have hc : canonical r.Path := by rw [h]; decide
  have hm : muxHandler (DefaultServeMux ph) r.Path = healthzHandler := by
    rw [h]; exact muxHandler_healthz ph
  unfold serve
  simp only [canonical_ne_star _ hc, if_false, muxHandlerFor_canonical _ code r hc, hm,
    finishRequest_of_wrote _ (healthzHandler_new r clk m).1]

/-- The header map after the not-found handler is the map before it with the
seven entries set, in the order of the source. -/
theorem notFoundHandler_header (w : http.ResponseWriter) (r : http.Request) (clk : Clock)
    (m : Metrics) :
    (notFoundHandler w r clk m).1.header
      = (((((((w.header.Set "Access-Control-Allow-Credentials" "true").Set
          "Access-Control-Allow-Headers" "Content-Type,Authorization,X-User-Agent").Set
          "Access-Control-Allow-Origin" "*").Set
          "Access-Control-Expose-Headers"
          ("Content-Type,Warning,X-Pages," ++ "X-ESI-Error-Limit-Remain,X-ESI-Error-Limit-Reset")).Set
          "Access-Control-Max-Age" "600").Set
          "Content-Type" "application/json").Set
          "Strict-Transport-Security" "max-age=31536000") := by
  simp only [notFoundHandler, http.ResponseWriter.Fprint, Write_header, WriteHeader_header,
    http.ResponseWriter.HeaderSet]

/-! ## The claims -/

/-- C1, as stated, fails.  A HEAD request for `/` is answered with status 404
and no body; a GET request for `//`, a path other than `/healthz` and
`/metrics`, is answered with the redirect to `/`, whose status is the status
the library redirects with and not 404, and whose body is not the JSON text. -/
theorem not_every_path_answers_json :
    ("/" ≠ "/healthz" ∧ "/" ≠ "/metrics" ∧
      (serve healthzHandler 301 ⟨"HEAD", "/", 1, 1, []⟩ ⟨0, 1⟩ Metrics.init).1.status = 404 ∧
      (serve healthzHandler 301 ⟨"HEAD", "/", 1, 1, []⟩ ⟨0, 1⟩ Metrics.init).1.body = "" ∧
      (serve healthzHandler 301 ⟨"HEAD", "/", 1, 1, []⟩ ⟨0, 1⟩ Metrics.init).1.body
        ≠ "\x7b\"error\": \"Not found\"\x7d") ∧
    ("//" ≠ "/healthz" ∧ "//" ≠ "/metrics" ∧
      (serve healthzHandler 301 ⟨"GET", "//", 1, 1, []⟩ ⟨0, 1⟩ Metrics.init).1.status = 301 ∧
      (serve healthzHandler 307 ⟨"GET", "//", 1, 1, []⟩ ⟨0, 1⟩ Metrics.init).1.status = 307 ∧
      (serve healthzHandler 301 ⟨"GET", "//", 1, 1, []⟩ ⟨0, 1⟩ Metrics.init).1.sentHeader
        "Location" = some ["/"] ∧
      (serve healthzHandler 301 ⟨"GET", "//", 1, 1, []⟩ ⟨0, 1⟩ Metrics.init).1.body
        ≠ "\x7b\"error\": \"Not found\"\x7d") := by
  decide

/-- C1, amended: for every request whose path is canonical (it begins with `/`
and has no empty element, no `.` and no `..`, so that the mux does not redirect
it) and is neither `/healthz` nor `/metrics` (any method, any headers, any
protocol version, any metrics state, any handler registered for `/metrics`),
the response has status exactly 404; its body is exactly the 22-character
string `{"error": "Not found"}` when the method is not HEAD, and is empty when
the method is HEAD. -/
theorem canonical_paths_answer_not_found (ph : HandlerFunc) (code : Nat) (r : http.Request)
    (clk : Clock) (m : Metrics) (hc : canonical r.Path) (h1 : r.Path ≠ "/healthz")
    (h2 : r.Path ≠ "/metrics") :
    (serve ph code r clk m).1.status = 404 ∧
    (r.Method ≠ "HEAD" →
      (serve ph code r clk m).1.body = "\x7b\"error\": \"Not found\"\x7d" ∧
      (serve ph code r clk m).1.body.length = 22) ∧
    (r.Method = "HEAD" → (serve ph code r clk m).1.body = "") := by
  rw [serve_eq_notFoundHandler ph code r clk m hc h1 h2]
  obtain ⟨_, hs, hb⟩ := notFoundHandler_new r clk m
  refine ⟨hs, ?_, ?_⟩
  · intro hm
    rw [hb, if_neg hm]
    exact ⟨rfl, by decide⟩
  · intro hm
    rw [hb, if_pos hm]

/-- The instance of C1, amended, at a POST request for `/healthz/` over
HTTP/2.0. -/
theorem canonical_paths_answer_not_found_witness :
    (canonical "/healthz/" ∧ "/healthz/" ≠ "/healthz" ∧ "/healthz/" ≠ "/metrics" ∧
      "POST" ≠ "HEAD") ∧
    (serve healthzHandler 301 ⟨"POST", "/healthz/", 2, 0, [("Accept", "*/*")]⟩ ⟨0, 7⟩
        Metrics.init).1.status = 404 ∧
    (serve healthzHandler 301 ⟨"POST", "/healthz/", 2, 0, [("Accept", "*/*")]⟩ ⟨0, 7⟩
        Metrics.init).1.body = "\x7b\"error\": \"Not found\"\x7d" ∧
    (serve healthzHandler 301 ⟨"POST", "/healthz/", 2, 0, [("Accept", "*/*")]⟩ ⟨0, 7⟩
        Metrics.init).1.body.length = 22 :=
  have h := canonical_paths_answer_not_found healthzHandler 301
    ⟨"POST", "/healthz/", 2, 0, [("Accept", "*/*")]⟩ ⟨0, 7⟩ Metrics.init
    (by decide) (by decide) (by decide)
  ⟨by decide, h.1, (h.2.1 (by decide)).1, (h.2.1 (by decide)).2⟩

/-- C4, as stated, fails: a HEAD request for `/healthz` is answered with status
200 and no body, not with the body `ok`. -/
theorem healthz_head_has_no_body :
    (serve notFoundHandler 301 ⟨"HEAD", "/healthz", 1, 1, []⟩ ⟨3, 4⟩ Metrics.init).1.status
      = 200 ∧
    (serve notFoundHandler 301 ⟨"HEAD", "/healthz", 1, 1, []⟩ ⟨3, 4⟩ Metrics.init).1.body = "" ∧
    (serve notFoundHandler 301 ⟨"HEAD", "/healthz", 1, 1, []⟩ ⟨3, 4⟩ Metrics.init).1.body
      ≠ "ok" := by
  decide

/-- C4, amended: for every request to the path `/healthz` (any method, any
protocol version) and every metrics state, including the state with zero prior
requests, the response has status exactly 200; its body is exactly `ok` when
the method is not HEAD, and is empty when the method is HEAD.  The handler is a
total function with no other outcome. -/
theorem healthz_answers_200 (ph : HandlerFunc) (code : Nat) (r : http.Request) (clk : Clock)
    (m : Metrics) (h : r.Path = "/healthz") :
    (serve ph code r clk m).1.status = 200 ∧
    (r.Method ≠ "HEAD" → (serve ph code r clk m).1.body = "ok") ∧
    (r.Method = "HEAD" → (serve ph code r clk m).1.body = "") := by
  rw [serve_eq_healthzHandler ph code r clk m h]
  obtain ⟨_, hs, hb⟩ := healthzHandler_new r clk m
  refine ⟨hs, ?_, ?_⟩
  · intro hm
    rw [hb, if_neg hm]
  · intro hm
    rw [hb, if_pos hm]

/-- The instance of C4, amended, at a GET request over HTTP/1.0 with no prior
request. -/
theorem healthz_answers_200_witness :
    (serve notFoundHandler 301 ⟨"GET", "/healthz", 1, 0, []⟩ ⟨3, 4⟩ Metrics.init).1.status
      = 200 ∧
    (serve notFoundHandler 301 ⟨"GET", "/healthz", 1, 0, []⟩ ⟨3, 4⟩ Metrics.init).1.body
      = "ok" :=
  have h := healthz_answers_200 notFoundHandler 301 ⟨"GET", "/healthz", 1, 0, []⟩ ⟨3, 4⟩
    Metrics.init rfl
  ⟨h.1, h.2.1 (by decide)⟩

/-- C5: a request to `/healthz` leaves the metrics state unchanged: the state
after the request is the state before it, so every label's Request Counter
value and every label's Request Duration observations are the same. -/
theorem healthz_keeps_metrics (ph : HandlerFunc) (code : Nat) (r : http.Request) (clk : Clock)
    (m : Metrics) (h : r.Path = "/healthz") :
    (serve ph code r clk m).2 = m ∧
    ∀ l : String, (serve ph code r clk m).2.requestCount l = m.requestCount l ∧
      (serve ph code r clk m).2.requestDuration l = m.requestDuration l := by
  rw [serve_eq_healthzHandler ph code r clk m h]
  exact ⟨rfl, fun _ => ⟨rfl, rfl⟩⟩

/-- The instance of C5 at a GET request with no prior request. -/
theorem healthz_keeps_metrics_witness :
    (serve notFoundHandler 301 ⟨"GET", "/healthz", 1, 1, []⟩ ⟨0, 9⟩ Metrics.init).2
      = Metrics.init ∧
    ∀ l : String,
      (serve notFoundHandler 301 ⟨"GET", "/healthz", 1, 1, []⟩ ⟨0, 9⟩
          Metrics.init).2.requestCount l
        = Metrics.init.requestCount l ∧
      (serve notFoundHandler 301 ⟨"GET", "/healthz", 1, 1, []⟩ ⟨0, 9⟩
          Metrics.init).2.requestDuration l
        = Metrics.init.requestDuration l :=
  healthz_keeps_metrics notFoundHandler 301 ⟨"GET", "/healthz", 1, 1, []⟩ ⟨0, 9⟩ Metrics.init rfl

/-- C2: for every request handled by the not-found handler, the header map
after the handler returns holds all seven entries with exactly the specified
values; and on a response whose status line is not yet written, the status
line the handler writes is 404 and the header map sent with it is that same
map: all seven were set before the status line was written. -/
theorem notFoundHandler_sets_headers (w : http.ResponseWriter) (r : http.Request)
    (clk : Clock) (m : Metrics) :
    ((notFoundHandler w r clk m).1.header "Access-Control-Allow-Credentials" = some ["true"] ∧
      (notFoundHandler w r clk m).1.header "Access-Control-Allow-Headers"
        = some ["Content-Type,Authorization,X-User-Agent"] ∧
      (notFoundHandler w r clk m).1.header "Access-Control-Allow-Origin" = some ["*"] ∧
      (notFoundHandler w r clk m).1.header "Access-Control-Expose-Headers"
        = some ["Content-Type,Warning,X-Pages,X-ESI-Error-Limit-Remain,X-ESI-Error-Limit-Reset"] ∧
      (notFoundHandler w r clk m).1.header "Access-Control-Max-Age" = some ["600"] ∧
      (notFoundHandler w r clk m).1.header "Content-Type" = some ["application/json"] ∧
      (notFoundHandler w r clk m).1.header "Strict-Transport-Security"
        = some ["max-age=31536000"]) ∧
    holdsAll (notFoundHandler w r clk m).1.header specHeaders ∧
    (w.wroteHeader = false →
      (notFoundHandler w r clk m).1.wroteHeader = true ∧
      (notFoundHandler w r clk m).1.status = 404 ∧
      (notFoundHandler w r clk m).1.sentHeader = (notFoundHandler w r clk m).1.header ∧
      holdsAll (notFoundHandler w r clk m).1.sentHeader specHeaders) := by
  have hh := notFoundHandler_header w r clk m
  have seven :
      (notFoundHandler w r clk m).1.header "Access-Control-Allow-Credentials" = some ["true"] ∧
      (notFoundHandler w r clk m).1.header "Access-Control-Allow-Headers"
        = some ["Content-Type,Authorization,X-User-Agent"] ∧
      (notFoundHandler w r clk m).1.header "Access-Control-Allow-Origin" = some ["*"] ∧
      (notFoundHandler w r clk m).1.header "Access-Control-Expose-Headers"
        = some ["Content-Type,Warning,X-Pages,X-ESI-Error-Limit-Remain,X-ESI-Error-Limit-Reset"] ∧
      (notFoundHandler w r clk m).1.header "Access-Control-Max-Age" = some ["600"] ∧
      (notFoundHandler w r clk m).1.header "Content-Type" = some ["application/json"] ∧
      (notFoundHandler w r clk m).1.header "Strict-Transport-Security"
        = some ["max-age=31536000"] := by
    rw [hh]
    exact ⟨rfl, rfl, rfl, rfl, rfl, rfl, rfl⟩
  have all : holdsAll (notFoundHandler w r clk m).1.header specHeaders := by
    intro kv hkv
    simp only [specHeaders, List.mem_cons, List.mem_singleton, List.not_mem_nil, or_false] at hkv
    obtain ⟨h1, h2, h3, h4, h5, h6, h7⟩ := seven
    rcases hkv with rfl | rfl | rfl | rfl | rfl | rfl | rfl
    · exact h1
    · exact h2
    · exact h3
    · exact h4
    · exact h5
    · exact h6
    · exact h7
  refine ⟨seven, all, ?_⟩
  intro hw
  rw [hh] at all
  rw [hh]
  obtain ⟨h, wh, st, sh, b, meth⟩ := w
  simp only at hw
  subst hw
  obtain ⟨e1, e2, e3, _, _⟩ := Write_after_status
    (http.ResponseWriter.WriteHeader
      ((((((((http.ResponseWriter.mk h false st sh b meth).HeaderSet "Access-Control-Allow-Credentials"
        "true").HeaderSet "Access-Control-Allow-Headers"
        "Content-Type,Authorization,X-User-Agent").HeaderSet "Access-Control-Allow-Origin"
        "*").HeaderSet "Access-Control-Expose-Headers"
        ("Content-Type,Warning,X-Pages," ++ "X-ESI-Error-Limit-Remain,X-ESI-Error-Limit-Reset")).HeaderSet "Access-Control-Max-Age"
        "600").HeaderSet "Content-Type"
        "application/json").HeaderSet "Strict-Transport-Security"
        "max-age=31536000")
      http.StatusNotFound)
    notFoundBody rfl (by decide) rfl
  have hs : (notFoundHandler ⟨h, false, st, sh, b, meth⟩ r clk m).1.sentHeader = _ := e3
  refine ⟨e1, e2, hs, ?_⟩
  rw [hs]
  exact all

/-- The instance of C2 at a GET request for `/` over HTTP/1.1 on a new response. -/
theorem notFoundHandler_sets_headers_witness :
    (notFoundHandler (http.newResponse ⟨"GET", "/", 1, 1, []⟩) ⟨"GET", "/", 1, 1, []⟩ ⟨0, 1⟩ Metrics.init).1.wroteHeader
      = true ∧
    (notFoundHandler (http.newResponse ⟨"GET", "/", 1, 1, []⟩) ⟨"GET", "/", 1, 1, []⟩ ⟨0, 1⟩ Metrics.init).1.status
      = 404 ∧
    (notFoundHandler (http.newResponse ⟨"GET", "/", 1, 1, []⟩) ⟨"GET", "/", 1, 1, []⟩ ⟨0, 1⟩ Metrics.init).1.sentHeader
      = (notFoundHandler (http.newResponse ⟨"GET", "/", 1, 1, []⟩) ⟨"GET", "/", 1, 1, []⟩ ⟨0, 1⟩
          Metrics.init).1.header ∧
    holdsAll (notFoundHandler (http.newResponse ⟨"GET", "/", 1, 1, []⟩) ⟨"GET", "/", 1, 1, []⟩ ⟨0, 1⟩
      Metrics.init).1.sentHeader specHeaders :=
  (notFoundHandler_sets_headers (http.newResponse ⟨"GET", "/", 1, 1, []⟩) ⟨"GET", "/", 1, 1, []⟩ ⟨0, 1⟩
    Metrics.init).2.2 rfl

/-! ### The metrics side effect of the not-found handler -/

/-- The metrics after one run of the not-found handler: the counter of the
request's label is one higher, the series of that label has one more
observation at its end, and no other label is touched. -/
theorem notFoundHandler_metrics (w : http.ResponseWriter) (r : http.Request) (clk : Clock)
    (m : Metrics) (l : String) :
    (notFoundHandler w r clk m).2.requestCount l
      = (if l = protoLabel r.ProtoMajor r.ProtoMinor then m.requestCount l + 1
        else m.requestCount l) ∧
    (notFoundHandler w r clk m).2.requestDuration l
      = (if l = protoLabel r.ProtoMajor r.ProtoMinor then
          m.requestDuration l ++ [Float64Millis.mk (clk.finish - clk.start)]
        else m.requestDuration l) :=
  ⟨rfl, rfl⟩

theorem runNotFound_label (M m : Int) :
    ∀ (rs : List (http.Request × Clock)) (m0 : Metrics),
      (∀ p ∈ rs, p.1.ProtoMajor = M ∧ p.1.ProtoMinor = m) →
      (runNotFound rs m0).requestCount (protoLabel M m)
        = m0.requestCount (protoLabel M m) + rs.length ∧
      ∃ obs : List Float64Millis, obs.length = rs.length ∧
        (runNotFound rs m0).requestDuration (protoLabel M m)
          = m0.requestDuration (protoLabel M m) ++ obs := by
  intro rs
  induction rs with
  | nil =>
    intro m0 _
    exact ⟨rfl, [], rfl, by simp [runNotFound]⟩
  | cons p rest ih =>
    intro m0 h
    obtain ⟨r, clk⟩ := p
    obtain ⟨hM, hm⟩ := h (r, clk) (List.mem_cons_self _ _)
    simp only at hM hm
    obtain ⟨hc, obs, hlen, hobs⟩ :=
      ih (notFoundHandler (http.newResponse r) r clk m0).2
        (fun q hq => h q (List.mem_cons_of_mem _ hq))
    have e := notFoundHandler_metrics (http.newResponse r) r clk m0 (protoLabel M m)
    rw [hM, hm] at e
    simp only [if_true] at e
    refine ⟨?_, Float64Millis.mk (clk.finish - clk.start) :: obs, by simp [hlen], ?_⟩
    · show (runNotFound rest _).requestCount _ = _
      rw [hc, e.1, List.length_cons]
      omega
    · show (runNotFound rest _).requestDuration _ = _
      rw [hobs, e.2]
      simp

/-- C3: for every natural number N, every protocol version and every starting
metrics state, running the not-found handler N times on requests of that
protocol version increases the Request Counter value of that version's label
by exactly N and appends exactly N observations to the Request Duration
Histogram series of that same label. -/
theorem n_requests_add_n (N : Nat) (M m : Int) (rs : List (http.Request × Clock))
    (m0 : Metrics) (hN : rs.length = N)
    (hv : ∀ p ∈ rs, p.1.ProtoMajor = M ∧ p.1.ProtoMinor = m) :
    (runNotFound rs m0).requestCount (protoLabel M m) = m0.requestCount (protoLabel M m) + N ∧
    (∃ obs : List Float64Millis, obs.length = N ∧
      (runNotFound rs m0).requestDuration (protoLabel M m)
        = m0.requestDuration (protoLabel M m) ++ obs) ∧
    ((runNotFound rs m0).requestDuration (protoLabel M m)).length
      = (m0.requestDuration (protoLabel M m)).length + N := by
  subst hN
  obtain ⟨hc, obs, hlen, hobs⟩ := runNotFound_label M m rs m0 hv
  exact ⟨hc, ⟨obs, hlen, hobs⟩, by rw [hobs, List.length_append, hlen]⟩

/-- The instance of C3 at three requests over HTTP/2.0 with no prior request. -/
theorem n_requests_add_n_witness :
    protoLabel 2 0 = "2.0" ∧
    (runNotFound [(⟨"GET", "/a", 2, 0, []⟩, ⟨0, 5⟩), (⟨"PUT", "/b", 2, 0, []⟩, ⟨7, 9⟩),
        (⟨"GET", "/", 2, 0, []⟩, ⟨10, 12⟩)] Metrics.init).requestCount (protoLabel 2 0)
      = Metrics.init.requestCount (protoLabel 2 0) + 3 :=
  ⟨by decide,
    (n_requests_add_n 3 2 0
      [(⟨"GET", "/a", 2, 0, []⟩, ⟨0, 5⟩), (⟨"PUT", "/b", 2, 0, []⟩, ⟨7, 9⟩),
        (⟨"GET", "/", 2, 0, []⟩, ⟨10, 12⟩)] Metrics.init rfl (by decide)).1⟩

/-- C6: for every request with protocol major version M and minor version m,
the label under which the not-found handler increments the Request Counter and
the label under which it records the Request Duration observation are the same
string: the decimal rendering of M, a single `.`, the decimal rendering of m.
The counter of that label goes up by one, its series gets one observation, and
every other label keeps its counter and its series.  An HTTP/1.1 request is
labelled `1.1`, an HTTP/2.0 request `2.0`. -/
theorem label_is_major_dot_minor (w : http.ResponseWriter) (r : http.Request) (clk : Clock)
    (m : Metrics) :
    protoLabel r.ProtoMajor r.ProtoMinor
      = toString r.ProtoMajor ++ "." ++ toString r.ProtoMinor ∧
    (∀ l : String, (notFoundHandler w r clk m).2.requestCount l
      = (if l = toString r.ProtoMajor ++ "." ++ toString r.ProtoMinor then m.requestCount l + 1
        else m.requestCount l)) ∧
    (∀ l : String, (notFoundHandler w r clk m).2.requestDuration l
      = (if l = toString r.ProtoMajor ++ "." ++ toString r.ProtoMinor then
          m.requestDuration l ++ [Float64Millis.mk (clk.finish - clk.start)]
        else m.requestDuration l)) ∧
    protoLabel 1 1 = "1.1" ∧ protoLabel 2 0 = "2.0" := by
  have hl : protoLabel r.ProtoMajor r.ProtoMinor
      = toString r.ProtoMajor ++ "." ++ toString r.ProtoMinor := by
    simp only [protoLabel, strconv.Itoa_eq_toString]
  refine ⟨hl, ?_, ?_, by decide, by decide⟩
  · intro l
    rw [← hl]
    exact (notFoundHandler_metrics w r clk m l).1
  · intro l
    rw [← hl]
    exact (notFoundHandler_metrics w r clk m l).2

/-- C7, as stated, fails: the label of an HTTP/2.0 request is not the string
`2`, and a not-found request over HTTP/2.0 leaves the counter and the series of
the label `2` untouched. -/
theorem http2_label_is_not_2 :
    ¬ (protoLabel 2 0 = "2") ∧
    (notFoundHandler (http.newResponse ⟨"GET", "/", 2, 0, []⟩) ⟨"GET", "/", 2, 0, []⟩ ⟨0, 1⟩
      Metrics.init).2.requestCount "2" = 0 ∧
    (notFoundHandler (http.newResponse ⟨"GET", "/", 2, 0, []⟩) ⟨"GET", "/", 2, 0, []⟩ ⟨0, 1⟩
      Metrics.init).2.requestDuration "2" = [] := by
  refine ⟨by decide, rfl, rfl⟩

/-- C7, amended: for a request negotiated as HTTP/2 (protocol major 2, minor 0)
the label the not-found handler uses for both the Request Counter increment
and the Request Duration observation is the string `2.0`, as for HTTP/1.1 it is
the string `1.1`. -/
theorem http2_label_is_2_0 (w : http.ResponseWriter) (method path : String)
    (hdr : List (String × String)) (clk : Clock) (m : Metrics) :
    protoLabel 2 0 = "2.0" ∧ protoLabel 1 1 = "1.1" ∧
    (notFoundHandler w ⟨method, path, 2, 0, hdr⟩ clk m).2.requestCount "2.0"
      = m.requestCount "2.0" + 1 ∧
    (notFoundHandler w ⟨method, path, 2, 0, hdr⟩ clk m).2.requestDuration "2.0"
      = m.requestDuration "2.0" ++ [Float64Millis.mk (clk.finish - clk.start)] ∧
    (notFoundHandler w ⟨method, path, 1, 1, hdr⟩ clk m).2.requestCount "1.1"
      = m.requestCount "1.1" + 1 ∧
    (notFoundHandler w ⟨method, path, 1, 1, hdr⟩ clk m).2.requestDuration "1.1"
      = m.requestDuration "1.1" ++ [Float64Millis.mk (clk.finish - clk.start)] := by
  refine ⟨by decide, by decide, rfl, rfl, rfl, rfl⟩

/-- C10: the protocol-version label is injective: equal labels come from equal
major and equal minor versions.  So a not-found request of one version leaves
the counter and the series of the label of every other version as they were;
the versions 1.10 and 11.0 give the distinct labels `1.10` and `11.0`. -/
theorem label_injective (M1 m1 M2 m2 : Int) :
    (protoLabel M1 m1 = protoLabel M2 m2 → M1 = M2 ∧ m1 = m2) ∧
    (¬ (M1 = M2 ∧ m1 = m2) →
      ∀ (w : http.ResponseWriter) (method path : String) (hdr : List (String × String))
        (clk : Clock) (m : Metrics),
        (notFoundHandler w ⟨method, path, M1, m1, hdr⟩ clk m).2.requestCount (protoLabel M2 m2)
          = m.requestCount (protoLabel M2 m2) ∧
        (notFoundHandler w ⟨method, path, M1, m1, hdr⟩ clk m).2.requestDuration
            (protoLabel M2 m2)
          = m.requestDuration (protoLabel M2 m2)) ∧
    protoLabel 1 10 = "1.10" ∧ protoLabel 11 0 = "11.0" := by
  refine ⟨protoLabel_inj, ?_, by decide, by decide⟩
  intro hne w method path hdr clk m
  have hl : protoLabel M2 m2 ≠ protoLabel M1 m1 := fun h =>
    hne ((protoLabel_inj h).imp Eq.symm Eq.symm)
  have e := notFoundHandler_metrics w ⟨method, path, M1, m1, hdr⟩ clk m (protoLabel M2 m2)
  simp only [hl, if_false] at e
  exact e

/-- The instance of C10 at the versions 1.10 and 11.0. -/
theorem label_injective_witness :
    ((1 : Int) = 1 ∧ (10 : Int) = 10) ∧
    ((notFoundHandler (http.newResponse ⟨"GET", "/", 1, 10, []⟩) ⟨"GET", "/", 1, 10, []⟩ ⟨0, 1⟩
        Metrics.init).2.requestCount (protoLabel 11 0)
      = Metrics.init.requestCount (protoLabel 11 0) ∧
    (notFoundHandler (http.newResponse ⟨"GET", "/", 1, 10, []⟩) ⟨"GET", "/", 1, 10, []⟩ ⟨0, 1⟩
        Metrics.init).2.requestDuration (protoLabel 11 0)
      = Metrics.init.requestDuration (protoLabel 11 0)) :=
  ⟨(label_injective 1 10 1 10).1 rfl,
    (label_injective 1 10 11 0).2.1 (by decide) (http.newResponse ⟨"GET", "/", 1, 10, []⟩) "GET" "/" [] ⟨0, 1⟩
      Metrics.init⟩

/-! ### The start/stop sequence -/

theorem step_exit_one (p : Process) (e : Event) (h : (step p e).exit = some 1) :
    p.exit = some 1 ∨ ∃ err, e = Event.listenReturns err ∧ err ≠ GoError.ErrServerClosed := by
  unfold step at h
  cases hp : p.exit with
  | some c =>
    simp only [hp] at h
    exact Or.inl h
  | none =>
    simp only [hp] at h
    cases e with
    | listenReturns err =>
      by_cases hc : err = GoError.ErrServerClosed
      · subst hc
        by_cases hl : p.listenReturned = true
        · simp [hl, hp] at h
        · simp [hl, listenGoroutine, hp] at h
      · exact Or.inr ⟨err, rfl, hc⟩
    | sigterm =>
      cases hph : p.phase <;> simp [hph, mainStop, hp] at h
    | shutdownReturns err =>
      cases hph : p.phase with
      | waiting => simp [hph, hp] at h
      | draining t =>
        by_cases he : err = GoError.nil <;>
          simp [hph, mainShutdownReturned, Process.Exit, Process.FprintfStderr, he] at h

theorem run_exit_one (evs : List Event) :
    ∀ p : Process, (run p evs).exit = some 1 →
      p.exit = some 1 ∨
        ∃ err, Event.listenReturns err ∈ evs ∧ err ≠ GoError.ErrServerClosed := by
  induction evs with
  | nil => intro p h; exact Or.inl h
  | cons e es ih =>
    intro p h
    rcases ih (step p e) h with h1 | ⟨err, hm, hne⟩
    · rcases step_exit_one p e h1 with h2 | ⟨err, rfl, hne⟩
      · exact Or.inl h2
      · exact Or.inr ⟨err, List.mem_cons_self _ _, hne⟩
    · exact Or.inr ⟨err, List.mem_cons_of_mem _ hm, hne⟩

/-- C8: when `ListenAndServe` returns, in a running process, any error other
than the server-closed sentinel, the process writes the message to standard
error and exits with status 1; whatever the sequence of events, the process
exits with status 1 only after such a return; and a return of the server-closed
sentinel changes neither the output nor the exit status. -/
theorem listen_failure_exits_one :
    (∀ (p : Process) (err : GoError), p.exit = none → p.listenReturned = false →
      err ≠ GoError.ErrServerClosed →
      (step p (Event.listenReturns err)).stderr
        = p.stderr ++ ["could not start http server: " ++ err.format ++ "\n"] ∧
      (step p (Event.listenReturns err)).exit = some 1) ∧
    (∀ evs : List Event, (run Process.init evs).exit = some 1 →
      ∃ err, Event.listenReturns err ∈ evs ∧ err ≠ GoError.ErrServerClosed) ∧
    (∀ p : Process, (step p (Event.listenReturns GoError.ErrServerClosed)).stderr = p.stderr ∧
      (step p (Event.listenReturns GoError.ErrServerClosed)).exit = p.exit) := by
  refine ⟨?_, ?_, ?_⟩
  · intro p err hp hl hne
    simp [step, hp, hl, listenGoroutine, hne, Process.Exit, Process.FprintfStderr]
  · intro evs h
    rcases run_exit_one evs Process.init h with h0 | h1
    · exact absurd h0 (by decide)
    · exact h1
  · intro p
    unfold step
    cases hp : p.exit with
    | some c => simp [hp]
    | none =>
      by_cases hl : p.listenReturned = true
      · simp [hl, hp]
      · simp [hl, listenGoroutine, hp]

/-- The instance of C8 at a bind failure in the starting process. -/
theorem listen_failure_exits_one_witness :
    (step Process.init
        (Event.listenReturns (GoError.other "listen tcp :8080: bind: address already in use"))).stderr
      = Process.init.stderr ++ ["could not start http server: "
          ++ (GoError.other "listen tcp :8080: bind: address already in use").format ++ "\n"] ∧
    (step Process.init
        (Event.listenReturns (GoError.other "listen tcp :8080: bind: address already in use"))).exit
      = some 1 :=
  listen_failure_exits_one.1 Process.init
    (GoError.other "listen tcp :8080: bind: address already in use") rfl rfl (by decide)

/-- C9: when the termination signal reaches the waiting main goroutine,
shutdown is invoked with a timeout of exactly 60 seconds; and when that
shutdown returns an error, the error is written to standard error and the
process ends with exit status 0, not status 1. -/
theorem drain_failure_is_not_fatal :
    (∀ p : Process, p.exit = none → p.phase = Phase.waiting →
      (step p Event.sigterm).phase = Phase.draining (60 * time.Second) ∧
      (step p Event.sigterm).exit = none) ∧
    time.Seconds (60 * time.Second) = 60 ∧
    (∀ (p : Process) (t : time.Duration) (err : GoError), p.exit = none →
      p.phase = Phase.draining t → err ≠ GoError.nil →
      (step p (Event.shutdownReturns err)).stderr
        = p.stderr ++ ["could not graceful shutdown http server: " ++ err.format ++ "\n"] ∧
      (step p (Event.shutdownReturns err)).exit = some 0 ∧
      (step p (Event.shutdownReturns err)).exit ≠ some 1) := by
  refine ⟨?_, ?_, ?_⟩
  · intro p hp hph
    simp [step, hp, hph, mainStop, time.Minute]
  · norm_num [time.Seconds, time.Second, time.Millisecond, time.Microsecond, time.Nanosecond]
  · intro p t err hp hph hne
    simp [step, hp, hph, mainShutdownReturned, hne, Process.Exit, Process.FprintfStderr]

/-- The instance of C9 at a drain that runs into its deadline. -/
theorem drain_failure_is_not_fatal_witness :
    (step Process.init Event.sigterm).phase = Phase.draining (60 * time.Second) ∧
    (step (step Process.init Event.sigterm)
        (Event.shutdownReturns (GoError.other "context deadline exceeded"))).stderr
      = (step Process.init Event.sigterm).stderr
        ++ ["could not graceful shutdown http server: "
          ++ (GoError.other "context deadline exceeded").format ++ "\n"] ∧
    (step (step Process.init Event.sigterm)
        (Event.shutdownReturns (GoError.other "context deadline exceeded"))).exit = some 0 :=
  have h := drain_failure_is_not_fatal.2.2 (step Process.init Event.sigterm) (60 * time.Second)
    (GoError.other "context deadline exceeded") rfl rfl (by decide)
  ⟨(drain_failure_is_not_fatal.1 Process.init rfl rfl).1, h.1, h.2.1⟩

end NotFoundServer
